import Mathlib

/-!
# go-token: token lifecycle manager over a Redis adapter

Shallow embedding of `generator.go`, `token.go` and `redis/redis.go`.

Go functions that touch the connection, the wall clock or the random source
are state-passing functions over `World`.  A Go `error` result is
`Option Error` (`none` is `nil`); a `(value, error)` result is `Except Error _`.
-/

namespace GoToken

/-! ## Errors -/

/-- Error values that can flow through the two packages.  Go compares the
sentinels by identity, so every `errors.New` is a constructor of its own:
`token.ErrNotFound` and `redis.ErrNotFound` carry the same text and are
different values. -/
inductive Error where
  | tokenIdNotSet
  | tokenValueNotSet
  | tokenNotFound
  | tokenInvalidToken
  | redisNotFound
  | redisInvalidValue
  | redigoNil
  | redigoUnexpectedType
  | strconvSyntax
  | network
  | uuidRead
  deriving DecidableEq, Repr

deriving instance DecidableEq for Except

namespace token

/-- Sentinel of generator.go: `ErrIdNotSet = errors.New("id is not set")`. -/
abbrev ErrIdNotSet : Error := Error.tokenIdNotSet
/-- Sentinel of generator.go: `ErrValueNotSet`. -/
abbrev ErrValueNotSet : Error := Error.tokenValueNotSet
/-- Sentinel of generator.go: `ErrNotFound = errors.New("not found")`. -/
abbrev ErrNotFound : Error := Error.tokenNotFound
/-- Sentinel of generator.go: `ErrInvalidToken`. -/
abbrev ErrInvalidToken : Error := Error.tokenInvalidToken

end token

namespace redis

/-- Sentinel of redis.go: `ErrNotFound = errors.New("not found")`. -/
abbrev ErrNotFound : Error := Error.redisNotFound
/-- Sentinel of redis.go: `ErrInvalidValue`. -/
abbrev ErrInvalidValue : Error := Error.redisInvalidValue
/-- The redigo sentinel `redis.ErrNil` (nil reply). -/
abbrev ErrNil : Error := Error.redigoNil

end redis

/-! ## Time (package `time`) -/

/-- A `time.Time` instant, as nanoseconds since the Unix epoch. -/
abbrev Time := Int

/-- A `time.Duration`, in nanoseconds. -/
abbrev Duration := Int

/-- Constant `time.Second`. -/
def Second : Duration := 1000000000

/-- Constant `time.Minute`. -/
def Minute : Duration := 60 * Second

/-- The zero value `time.Time{}`: January 1, year 1, 00:00:00 UTC. -/
def zeroTime : Time := -62135596800 * 1000000000

/-- Method `Time.Add`. -/
def Time.Add (t : Time) (d : Duration) : Time := t + d

/-- Method `Time.Unix`: whole seconds since the epoch (rounded down). -/
def Time.Unix (t : Time) : Int := t / Second

/-- Method `Time.Round`: the nearest multiple of `d` since the zero time,
halfway values rounding up; `t` itself when `d <= 0`. -/
def Time.Round (t : Time) (d : Duration) : Time :=
  if d ≤ 0 then t
  else
    let r := (t - zeroTime) % d
    if r + r < d then t - r else t + (d - r)

/-- The call `time.ParseDuration(fmt.Sprintf("%ds", n))`: the text is a signed
decimal integer followed by the unit `s`.  The parser accepts it exactly when
the magnitude is at most `(1<<63)/1e9 = 9223372036` seconds. -/
def ParseDurationSeconds (n : Int) : Option Duration :=
  if n.natAbs ≤ 9223372036 then some (n * Second) else none

/-! ## The store: a Redis server behind a redigo connection -/

/-- One record of the server keyspace. -/
structure Entry where
  /-- the string value -/
  value : String
  /-- absolute expiry in Unix seconds; `none` when the key has no expiry -/
  expireAt : Option Int
  deriving DecidableEq, Repr

/-- Commands the adapter writes to the connection. -/
inductive Command where
  | MULTI
  | EXEC
  | SELECT (db : Int)
  | GET (key : String)
  | SET (key value : String)
  | EXPIREAT (key : String) (unix : Int)
  | DEL (key : String)
  | TTL (key : String)
  deriving DecidableEq, Repr

/-- Replies of the server. -/
inductive Reply where
  | null
  | status (s : String)
  | bulk (s : String)
  | int (n : Int)
  | multi (rs : List Reply)

/-- The server keyspace, by full key. -/
abbrev Keyspace := String → Option Entry

/-- A rendered version 4 uuid, the result of `uuid4.String()`: 36 characters. -/
abbrev UUID := { s : String // s.length = 36 }

/-- Everything outside the Go values: the server, the connection, the clock
and the random source.

A command is evaluated by the server `rtt` nanoseconds after it is issued and
its reply is taken to arrive at the instant of evaluation; client and server
share the wall clock `now`. -/
structure World where
  /-- whether the server is reachable over the connection -/
  up : Bool
  /-- the server keyspace -/
  db : Keyspace
  /-- the wall clock -/
  now : Time
  /-- nanoseconds that pass while a command travels to the server -/
  rtt : Nat
  /-- commands written to the connection so far, most recent first -/
  sent : List Command
  /-- number of uuids drawn so far -/
  draws : Nat
  /-- the random source: the uuid produced by the n-th draw, `none` when
  reading random bytes fails -/
  entropy : Nat → Option UUID

/-- Whether a record is still alive at instant `t`. -/
def Entry.live (t : Time) (e : Entry) : Bool :=
  match e.expireAt with
  | none => true
  | some u => decide (t < u * Second)

/-- The record the server holds for `key` at instant `t`; expired records are
absent. -/
def Keyspace.lookup (db : Keyspace) (t : Time) (key : String) : Option Entry :=
  match db key with
  | none => none
  | some e => if e.live t then some e else none

/-- Keyspace update. -/
def Keyspace.put (db : Keyspace) (key : String) (v : Option Entry) : Keyspace :=
  fun k => if k = key then v else db k

/-- Server semantics of one command at instant `t`.
`TTL` replies -2 for an absent key, -1 for a key without expiry, else the
whole seconds remaining.  `EXPIREAT` with an instant that is not in the future
deletes the key. -/
def serve (t : Time) (db : Keyspace) : Command → Reply × Keyspace
  | .MULTI => (.status "OK", db)
  | .EXEC => (.multi [], db)
  | .SELECT _ => (.status "OK", db)
  | .GET key =>
    match db.lookup t key with
    | none => (.null, db)
    | some e => (.bulk e.value, db)
  | .SET key value => (.status "OK", db.put key (some ⟨value, none⟩))
  | .EXPIREAT key unix =>
    match db.lookup t key with
    | none => (.int 0, db)
    | some e =>
      if unix * Second ≤ t then (.int 1, db.put key none)
      else (.int 1, db.put key (some ⟨e.value, some unix⟩))
  | .DEL key =>
    match db.lookup t key with
    | none => (.int 0, db.put key none)
    | some _ => (.int 1, db.put key none)
  | .TTL key =>
    match db.lookup t key with
    | none => (.int (-2), db)
    | some e =>
      match e.expireAt with
      | none => (.int (-1), db)
      | some u => (.int ((u * Second - t) / Second), db)

/-- Server semantics of a queue of commands run in order at one instant. -/
def serveAll (t : Time) : Keyspace → List Command → List Reply × Keyspace
  | db, [] => ([], db)
  | db, c :: cs =>
    let (r, db1) := serve t db c
    let (rs, db2) := serveAll t db1 cs
    (r :: rs, db2)

/-- Call `conn.Do(cmd)`: one round trip. -/
def World.Do (w : World) (cmd : Command) : Except Error Reply × World :=
  let t := w.now + w.rtt
  if w.up then
    let (rep, db1) := serve t w.db cmd
    (.ok rep, { w with db := db1, now := t, sent := cmd :: w.sent })
  else
    (.error Error.network, { w with now := t, sent := cmd :: w.sent })

/-- The pipeline `Send("MULTI")`, `Send` of each queued command, `Do("EXEC")`:
one round trip; the server runs the queue atomically at one instant and the
reply of `EXEC` holds the replies of the queued commands. -/
def World.Exec (w : World) (queue : List Command) : Except Error Reply × World :=
  let t := w.now + w.rtt
  let log := Command.EXEC :: (queue.reverse ++ Command.MULTI :: w.sent)
  if w.up then
    let (rs, db1) := serveAll t w.db queue
    (.ok (.multi rs), { w with db := db1, now := t, sent := log })
  else
    (.error Error.network, { w with now := t, sent := log })

/-- Helper `redis.String` of redigo. -/
def redisString : Except Error Reply → Except Error String
  | .error err => .error err
  | .ok (.bulk s) => .ok s
  | .ok (.status s) => .ok s
  | .ok .null => .error redis.ErrNil
  | .ok _ => .error Error.redigoUnexpectedType

/-- Helper `redis.Int` of redigo. -/
def redisInt : Except Error Reply → Except Error Int
  | .error err => .error err
  | .ok (.int n) => .ok n
  | .ok (.bulk s) =>
    match s.toInt? with
    | some n => .ok n
    | none => .error Error.strconvSyntax
  | .ok .null => .error redis.ErrNil
  | .ok _ => .error Error.redigoUnexpectedType

/-- Call `uuid.NewV4()` followed by `String()`: one draw from the random
source. -/
def uuidNewV4 (w : World) : Except Error String × World :=
  match w.entropy w.draws with
  | none => (.error Error.uuidRead, { w with draws := w.draws + 1 })
  | some u => (.ok u.val, { w with draws := w.draws + 1 })

/-! ## redis/redis.go -/

/-- Struct `Redis`; the connection itself lives in `World`. -/
structure Redis where
  /-- field `prefix` -/
  pfx : String
  deriving DecidableEq, Repr

/-- Constant `Prefix`. -/
def Prefix : String := "go-token"

/-- Struct `RedisConf`. -/
structure RedisConf where
  Host : String
  Port : String
  DB : Int
  deriving DecidableEq, Repr

/-- Method `RedisConf.address`. -/
def RedisConf.address (rc : RedisConf) : String :=
  let host := if rc.Host = "" then "localhost" else rc.Host
  let port := if rc.Port = "" then "6379" else rc.Port
  host ++ ":" ++ port

/-- Call `redis.Dial("tcp", address)`: succeeds exactly when the server is
reachable. -/
def World.Dial (w : World) (_address : String) : Option Error :=
  if w.up then none else some Error.network

/-- Function `NewRedis`. -/
def NewRedis (conf : RedisConf) (pfx : String) (w : World) : Except Error Redis × World :=
  if w.Dial conf.address = none then
    let selected : Option Error × World :=
      if conf.DB ≠ 0 then
        match w.Do (.SELECT conf.DB) with
        | (.error err, w1) => (some err, w1)
        | (.ok _, w1) => (none, w1)
      else (none, w)
    match selected with
    | (some err, w1) => (.error err, w1)
    | (none, w1) =>
      let r : Redis := { pfx := pfx }
      if r.pfx = "" then (.ok { r with pfx := Prefix }, w1) else (.ok r, w1)
  else (.error Error.network, w)

/-- Method `Redis.prepareKey`: `fmt.Sprintf("%s:%s", r.prefix, id)`. -/
def Redis.prepareKey (r : Redis) (id : String) : String :=
  r.pfx ++ ":" ++ id

/-- Method `Redis.Set`. -/
def Redis.Set (r : Redis) (id token : String) (expireAt : Time) (w : World) :
    Option Error × World :=
  let key := r.prepareKey id
  match w.Exec [.SET key token, .EXPIREAT key (Time.Unix expireAt)] with
  | (.error err, w1) => (some err, w1)
  | (.ok _, w1) => (none, w1)

/-- Method `Redis.Get`. -/
def Redis.Get (r : Redis) (id : String) (w : World) : Except Error String × World :=
  let key := r.prepareKey id
  match w.Do (.GET key) with
  | (rep, w1) =>
    match redisString rep with
    | .error err =>
      if err = redis.ErrNil then (.ok "", w1) else (.error err, w1)
    | .ok reply => (.ok reply, w1)

/-- Method `Redis.Del`. -/
def Redis.Del (r : Redis) (id : String) (w : World) : Option Error × World :=
  let key := r.prepareKey id
  match w.Do (.DEL key) with
  | (.error err, w1) => (some err, w1)
  | (.ok _, w1) => (none, w1)

/-- Method `Redis.GetExpireAt`. -/
def Redis.GetExpireAt (r : Redis) (id : String) (w : World) : Except Error Time × World :=
  let key := r.prepareKey id
  match w.Do (.TTL key) with
  | (rep, w1) =>
    match redisInt rep with
    | .error err => (.error err, w1)
    | .ok res =>
      if res = -2 then (.error redis.ErrNotFound, w1)
      else if res = -1 then (.ok zeroTime, w1)
      else
        match ParseDurationSeconds (res - 4) with
        | none => (.error redis.ErrInvalidValue, w1)
        | some expireAt => (.ok (Time.Add w1.now expireAt), w1)

/-! ## token.go -/

/-- Struct `Token`. -/
structure Token where
  Id : String
  Value : String
  ExpireAt : Time
  deriving DecidableEq, Repr

/-- Function `NewToken`: the zero token. -/
def NewToken : Token := { Id := "", Value := "", ExpireAt := zeroTime }

/-! ## generator.go -/

/-- Struct `TokenManager`. -/
structure TokenManager where
  redisConn : Redis
  ttl : Duration
  deriving DecidableEq, Repr

/-- Function `NewTokenManager`. -/
def NewTokenManager (redisConn : Redis) (ttl : Duration) : TokenManager :=
  { redisConn := redisConn, ttl := ttl }

/-- Method `TokenManager.generateUUID`. -/
def TokenManager.generateUUID (_tm : TokenManager) (w : World) : Except Error String × World :=
  match uuidNewV4 w with
  | (.error err, w1) => (.error err, w1)
  | (.ok uuid4, w1) => (.ok uuid4, w1)

/-- Method `TokenManager.Get`. -/
def TokenManager.Get (tm : TokenManager) (id : String) (w : World) :
    Except Error Token × World :=
  match tm.redisConn.Get id w with
  | (.error err, w1) => (.error err, w1)
  | (.ok tokenValue, w1) =>
    if tokenValue = "" then (.error token.ErrNotFound, w1)
    else
      match tm.redisConn.GetExpireAt id w1 with
      | (.error err, w2) => (.error err, w2)
      | (.ok expireAt, w2) =>
        (.ok { NewToken with Id := id, Value := tokenValue,
                             ExpireAt := Time.Round expireAt Minute }, w2)

/-- Method `TokenManager.Create`. -/
def TokenManager.Create (tm : TokenManager) (id : String) (w : World) :
    Except Error Token × World :=
  if id = "" then (.error token.ErrIdNotSet, w)
  else
    match tm.generateUUID w with
    | (.error err, w1) => (.error err, w1)
    | (.ok tokenValue, w1) =>
      let expireAt := Time.Round (Time.Add w1.now tm.ttl) Minute
      let t : Token := { NewToken with Id := id, Value := tokenValue, ExpireAt := expireAt }
      match tm.redisConn.Set id tokenValue expireAt w1 with
      | (some err, w2) => (.error err, w2)
      | (none, w2) => (.ok t, w2)

/-- Method `TokenManager.Authenticate`. -/
def TokenManager.Authenticate (tm : TokenManager) (t : Token) (w : World) :
    Option Error × World :=
  if t.Id = "" then (some token.ErrIdNotSet, w)
  else if t.Value = "" then (some token.ErrValueNotSet, w)
  else
    match tm.Get t.Id w with
    | (.error err, w1) =>
      if err = token.ErrNotFound then (some token.ErrInvalidToken, w1)
      else (some err, w1)
    | (.ok tok, w1) =>
      if tok.Value ≠ t.Value then (some token.ErrInvalidToken, w1)
      else (none, w1)

/-- Method `TokenManager.GetOrCreate`. -/
def TokenManager.GetOrCreate (tm : TokenManager) (id : String) (w : World) :
    Except Error Token × World :=
  if id = "" then (.error token.ErrIdNotSet, w)
  else
    match tm.Get id w with
    | (.ok tok, w1) => (.ok tok, w1)
    | (.error err, w1) =>
      if err ≠ token.ErrNotFound then (.error err, w1)
      else tm.Create id w1

/-- Method `TokenManager.Invalidate`. -/
def TokenManager.Invalidate (tm : TokenManager) (id : String) (w : World) :
    Option Error × World :=
  if id = "" then (some token.ErrIdNotSet, w)
  else tm.redisConn.Del id w

/-! ## Auxiliary definitions for the statements -/

/-- The world after one round trip that leaves the keyspace alone. -/
def World.tick (w : World) (cmd : Command) : World :=
  { w with now := w.now + w.rtt, sent := cmd :: w.sent }

/-- The integer the server replies to `TTL key` at instant `t`. -/
def ttlReply (db : Keyspace) (t : Time) (key : String) : Int :=
  match db.lookup t key with
  | none => -2
  | some e =>
    match e.expireAt with
    | none => -1
    | some u => (u * Second - t) / Second

/-- The value the server replies to `GET key` at instant `t`, with the
adapter's empty string for a nil reply. -/
def getReply (db : Keyspace) (t : Time) (key : String) : String :=
  match db.lookup t key with
  | none => ""
  | some e => e.value

/-- What `GetExpireAt` makes of an integer TTL reply `res` once the clock
reads `now`. -/
def expireAtOfReply (now : Time) (res : Int) : Except Error Time :=
  if res = -2 then .error redis.ErrNotFound
  else if res = -1 then .ok zeroTime
  else
    match ParseDurationSeconds (res - 4) with
    | none => .error redis.ErrInvalidValue
    | some d => .ok (Time.Add now d)

/-- The record `Redis.Set` leaves behind when the server runs it at instant
`t`: none when the expiry is not in the future. -/
def recordAfterSet (t : Time) (value : String) (expireAt : Time) : Option Entry :=
  if Time.Unix expireAt * Second ≤ t then none
  else some ⟨value, some (Time.Unix expireAt)⟩

/-- The world `w` with its clock reading `t`. -/
def World.atTime (w : World) (t : Time) : World := { w with now := t }

/-! ## Concrete managers and worlds used to exercise the statements -/

/-- A rendered uuid. -/
def uuidA : UUID := ⟨"6ba7b810-9dad-41d1-80b4-00c04fd430c8", by decide⟩

/-- Another rendered uuid. -/
def uuidB : UUID := ⟨"6ba7b811-9dad-41d1-80b4-00c04fd430c8", by decide⟩

/-- A random source that alternates between two uuids. -/
def entropyAB : Nat → Option UUID :=
  fun n => if n % 2 = 0 then some uuidA else some uuidB

/-- The adapter of the manager tests: prefix `generator-testing`. -/
def testRedis : Redis := { pfx := "generator-testing" }

/-- The manager of the tests: `NewTokenManager(redisConn, 1*time.Minute)`. -/
def testManager : TokenManager := NewTokenManager testRedis (1 * Minute)

/-- A reachable server with an empty keyspace, clock `now` and travel time
`rtt`. -/
def emptyWorld (now : Time) (rtt : Nat) : World :=
  { up := true, db := fun _ => none, now := now, rtt := rtt, sent := [], draws := 0,
    entropy := entropyAB }

/-- A reachable server holding the single record `key -> e`. -/
def singleWorld (now : Time) (rtt : Nat) (key : String) (e : Entry) : World :=
  { up := true, db := fun k => if k = key then some e else none, now := now, rtt := rtt,
    sent := [], draws := 0, entropy := entropyAB }

/-- The adapter of the adapter tests: prefix `token-test`. -/
def adapterTestRedis : Redis := { pfx := "token-test" }

/-- The record of the authentication test (id 9, value 3578), expiring at
second 60, read at instant 0. -/
def freshWorld : World := singleWorld 0 0 "generator-testing:9" ⟨"3578", some 60⟩

/-- The same record written without an expiry. -/
def noExpiryWorld : World := singleWorld 0 0 "generator-testing:9" ⟨"3578", none⟩

/-- The same record read half a second before it expires. -/
def lastSecondWorld : World :=
  singleWorld (59 * Second + 500000000) 0 "generator-testing:9" ⟨"3578", some 60⟩

/-- The same record with an expiry ten thousand million seconds ahead. -/
def farFutureWorld : World :=
  singleWorld 0 0 "generator-testing:9" ⟨"3578", some 10000000000⟩

/-- The same record, one second before it expires, on a connection whose
commands take 600 ms to reach the server: the value read arrives at 59.6 s,
the TTL read at 60.2 s. -/
def raceWorld : World :=
  singleWorld (59 * Second) 600000000 "generator-testing:9" ⟨"3578", some 60⟩

/-- The result of `Authenticate` as the specification words it: the two
argument checks, then failure when no record is held or the held value
differs, else success. -/
def AuthenticateSpec (tm : TokenManager) (t : Token) (w : World) : Option Error :=
  if t.Id = "" then some token.ErrIdNotSet
  else if t.Value = "" then some token.ErrValueNotSet
  else
    match w.db.lookup (w.now + w.rtt) (tm.redisConn.prepareKey t.Id) with
    | none => some token.ErrInvalidToken
    | some e => if e.value ≠ t.Value then some token.ErrInvalidToken else none

/-- A record for id 9 whose stored value is the empty string. -/
def emptyValueWorld : World := singleWorld 0 0 "generator-testing:9" ⟨"", some 60⟩

/-- A manager configured with a time-to-live of twenty seconds. -/
def shortManager : TokenManager := NewTokenManager testRedis (20 * Second)

/-! ## Basic facts about the store model and the adapter -/

theorem prepareKey_injective (r : Redis) (a b : String)
    (h : r.prepareKey a = r.prepareKey b) : a = b := by
  unfold Redis.prepareKey at h
  have hd := congrArg String.data h
  simp only [String.data_append] at hd
  exact String.ext (List.append_cancel_left hd)

theorem lookup_put_same (db : Keyspace) (t : Time) (key : String) (v : Option Entry) :
    (db.put key v).lookup t key = (match v with
      | none => none
      | some e => if e.live t then some e else none) := by
  simp [Keyspace.lookup, Keyspace.put]

theorem put_other (db : Keyspace) (key k : String) (v : Option Entry) (h : k ≠ key) :
    (db.put key v) k = db k := by
  simp [Keyspace.put, h]

theorem put_put (db : Keyspace) (key : String) (v v2 : Option Entry) :
    (db.put key v).put key v2 = db.put key v2 := by
  funext k
  by_cases h : k = key <;> simp [Keyspace.put, h]

theorem serve_TTL (t : Time) (db : Keyspace) (key : String) :
    serve t db (.TTL key) = (.int (ttlReply db t key), db) := by
  rcases h : db.lookup t key with _ | e
  · simp [serve, ttlReply, h]
  · rcases h2 : e.expireAt with _ | u <;> simp [serve, ttlReply, h, h2]

theorem Redis_Get_up (r : Redis) (id : String) (w : World) (hup : w.up = true) :
    r.Get id w = (.ok (getReply w.db (w.now + w.rtt) (r.prepareKey id)),
                  w.tick (.GET (r.prepareKey id))) := by
  rcases h : w.db.lookup (w.now + w.rtt) (r.prepareKey id) with _ | e <;>
    simp [Redis.Get, World.Do, getReply, World.tick, serve, redisString, hup, h]

theorem Redis_Get_down (r : Redis) (id : String) (w : World) (hup : w.up = false) :
    r.Get id w = (.error Error.network, w.tick (.GET (r.prepareKey id))) := by
  unfold Redis.Get World.Do World.tick
  simp [hup, redisString]

theorem Redis_GetExpireAt_up (r : Redis) (id : String) (w : World) (hup : w.up = true) :
    r.GetExpireAt id w =
      (expireAtOfReply (w.now + w.rtt) (ttlReply w.db (w.now + w.rtt) (r.prepareKey id)),
       w.tick (.TTL (r.prepareKey id))) := by
  simp only [Redis.GetExpireAt, World.Do, hup, if_true, serve_TTL, redisInt, expireAtOfReply,
    World.tick]
  split_ifs <;> try rfl
  cases ParseDurationSeconds (ttlReply w.db (w.now + ↑w.rtt) (r.prepareKey id) - 4) <;> rfl

theorem Redis_GetExpireAt_down (r : Redis) (id : String) (w : World) (hup : w.up = false) :
    r.GetExpireAt id w = (.error Error.network, w.tick (.TTL (r.prepareKey id))) := by
  simp [Redis.GetExpireAt, World.Do, World.tick, hup, redisInt]

theorem Redis_Del_up (r : Redis) (id : String) (w : World) (hup : w.up = true) :
    r.Del id w = (none, { w with db := w.db.put (r.prepareKey id) none,
                                 now := w.now + w.rtt,
                                 sent := .DEL (r.prepareKey id) :: w.sent }) := by
  rcases h : w.db.lookup (w.now + w.rtt) (r.prepareKey id) with _ | e <;>
    simp [Redis.Del, World.Do, serve, hup, h]

theorem Redis_Del_down (r : Redis) (id : String) (w : World) (hup : w.up = false) :
    r.Del id w = (some Error.network, w.tick (.DEL (r.prepareKey id))) := by
  simp [Redis.Del, World.Do, World.tick, hup]

theorem Redis_Set_up (r : Redis) (id tok : String) (expireAt : Time) (w : World)
    (hup : w.up = true) :
    r.Set id tok expireAt w =
      (none, { w with
        db := w.db.put (r.prepareKey id) (recordAfterSet (w.now + w.rtt) tok expireAt),
        now := w.now + w.rtt,
        sent := .EXEC :: .EXPIREAT (r.prepareKey id) (Time.Unix expireAt) ::
                .SET (r.prepareKey id) tok :: .MULTI :: w.sent }) := by
  by_cases h : Time.Unix expireAt * Second ≤ w.now + w.rtt <;>
    simp [Redis.Set, World.Exec, serveAll, serve, hup, lookup_put_same, Entry.live, put_put,
      recordAfterSet, h]

theorem Redis_Set_down (r : Redis) (id tok : String) (expireAt : Time) (w : World)
    (hup : w.up = false) :
    r.Set id tok expireAt w =
      (some Error.network, { w with
        now := w.now + w.rtt,
        sent := .EXEC :: .EXPIREAT (r.prepareKey id) (Time.Unix expireAt) ::
                .SET (r.prepareKey id) tok :: .MULTI :: w.sent }) := by
  simp [Redis.Set, World.Exec, hup]

theorem lookup_of_record (db : Keyspace) (t : Time) (key v : String) (u : Int)
    (h : db key = some ⟨v, some u⟩) :
    db.lookup t key = if t < u * Second then some ⟨v, some u⟩ else none := by
  simp [Keyspace.lookup, h, Entry.live]

theorem ttlReply_of_record (db : Keyspace) (t : Time) (key v : String) (u : Int)
    (h : db key = some ⟨v, some u⟩) :
    ttlReply db t key = if t < u * Second then (u * Second - t) / Second else -2 := by
  rw [ttlReply, lookup_of_record db t key v u h]
  split_ifs <;> rfl

theorem getReply_of_record (db : Keyspace) (t : Time) (key v : String) (u : Int)
    (h : db key = some ⟨v, some u⟩) :
    getReply db t key = if t < u * Second then v else "" := by
  rw [getReply, lookup_of_record db t key v u h]
  split_ifs <;> rfl

theorem ttlReply_ge (db : Keyspace) (t : Time) (key : String) :
    -2 ≤ ttlReply db t key := by
  unfold ttlReply
  rcases h : db.lookup t key with _ | e
  · simp
  · rcases h2 : e.expireAt with _ | u
    · simp [h2]
    · simp only [h2]
      have hl : e.live t = true := by
        unfold Keyspace.lookup at h
        rcases h3 : db key with _ | e2
        · simp [h3] at h
        · simp only [h3] at h
          split_ifs at h with h4
          cases h
          exact h4
      simp only [Entry.live, h2, decide_eq_true_eq] at hl
      simp only [Second, Time, Duration] at *
      omega

theorem expireAtOfReply_in_range (now : Time) (res : Int) (h0 : 0 ≤ res)
    (hr : res - 4 ≤ 9223372036) :
    expireAtOfReply now res = .ok (now + (res - 4) * Second) := by
  have h1 : ¬ res = -2 := by omega
  have h2 : ¬ res = -1 := by omega
  have h3 : (res - 4).natAbs ≤ 9223372036 := by omega
  simp [expireAtOfReply, h1, h2, ParseDurationSeconds, h3, Time.Add]

theorem expireAtOfReply_out_of_range (now : Time) (res : Int)
    (hr : 9223372036 < res - 4) :
    expireAtOfReply now res = .error redis.ErrInvalidValue := by
  have h1 : ¬ res = -2 := by omega
  have h2 : ¬ res = -1 := by omega
  have h3 : ¬ (res - 4).natAbs ≤ 9223372036 := by omega
  simp [expireAtOfReply, h1, h2, ParseDurationSeconds, h3]

theorem Do_TTL_after_Get (r : Redis) (id : String) (w : World) (hup : w.up = true) :
    redisInt ((r.Get id w).2.Do (.TTL (r.prepareKey id))).1 =
      .ok (ttlReply w.db (w.now + w.rtt + w.rtt) (r.prepareKey id)) := by
  rw [Redis_Get_up _ _ _ hup]
  simp [World.Do, World.tick, hup, serve_TTL, redisInt]

theorem expireAtOfReply_ok_ne (now : Time) (res : Int) (e : Time)
    (h : expireAtOfReply now res = .ok e) : res ≠ -2 := by
  intro h2
  simp [expireAtOfReply, h2] at h

theorem fits_duration (res : Int)
    (h : res = -1 ∨ (0 ≤ res ∧ (res - 4) * Second < 2 ^ 63)) :
    res = -1 ∨ (0 ≤ res ∧ res - 4 ≤ 9223372036) := by
  rcases h with h | ⟨h0, hr⟩
  · exact Or.inl h
  · refine Or.inr ⟨h0, ?_⟩
    simp only [Second, Time, Duration] at hr
    omega

theorem expireAtOfReply_readable (now : Time) (res : Int)
    (h : res = -1 ∨ (0 ≤ res ∧ res - 4 ≤ 9223372036)) :
    ∃ e, expireAtOfReply now res = .ok e := by
  rcases h with h | ⟨h0, hr⟩
  · exact ⟨zeroTime, by simp [expireAtOfReply, h]⟩
  · exact ⟨_, expireAtOfReply_in_range now res h0 hr⟩

/-! ## Rounding to the minute -/

theorem Round_Minute_aligned (t : Time) : Time.Round t Minute % Minute = 0 := by
  simp only [Time.Round, Minute, Second, zeroTime, Time, Duration]
  split_ifs <;> omega

theorem Round_Minute_near (t : Time) :
    t - Minute / 2 < Time.Round t Minute ∧ Time.Round t Minute ≤ t + Minute / 2 := by
  simp only [Time.Round, Minute, Second, zeroTime, Time, Duration]
  split_ifs <;> omega

theorem Unix_of_aligned (E : Time) (h : E % Minute = 0) : Time.Unix E * Second = E := by
  simp only [Time.Unix, Minute, Second, Time, Duration] at *
  omega

theorem Round_after_correction (E t : Time) (h : E % Minute = 0) :
    Time.Round (t + ((E - t) / Second - 4) * Second) Minute = E := by
  simp only [Time.Round, Minute, Second, zeroTime, Time, Duration] at *
  split_ifs <;> omega

/-! ## Facts about the manager -/

theorem Manager_Get_up (tm : TokenManager) (id : String) (w : World) (hup : w.up = true) :
    tm.Get id w =
      (if getReply w.db (w.now + w.rtt) (tm.redisConn.prepareKey id) = "" then
        (.error token.ErrNotFound, w.tick (.GET (tm.redisConn.prepareKey id)))
      else
        match expireAtOfReply (w.now + w.rtt + w.rtt)
            (ttlReply w.db (w.now + w.rtt + w.rtt) (tm.redisConn.prepareKey id)) with
        | .error err =>
          (.error err, (w.tick (.GET (tm.redisConn.prepareKey id))).tick
                          (.TTL (tm.redisConn.prepareKey id)))
        | .ok e =>
          (.ok { Id := id, Value := getReply w.db (w.now + w.rtt) (tm.redisConn.prepareKey id),
                 ExpireAt := Time.Round e Minute },
           (w.tick (.GET (tm.redisConn.prepareKey id))).tick
              (.TTL (tm.redisConn.prepareKey id)))) := by
  have hup1 : (w.tick (.GET (tm.redisConn.prepareKey id))).up = true := hup
  simp only [TokenManager.Get, Redis_Get_up _ _ _ hup]
  split_ifs with h
  · rfl
  · simp only [Redis_GetExpireAt_up _ _ _ hup1]
    simp only [World.tick, NewToken]
    split <;> rename_i h1 <;> split <;> rename_i h2 <;> simp_all

theorem Manager_Get_down (tm : TokenManager) (id : String) (w : World)
    (hup : w.up = false) :
    tm.Get id w = (.error Error.network, w.tick (.GET (tm.redisConn.prepareKey id))) := by
  simp only [TokenManager.Get, Redis_Get_down _ _ _ hup]

theorem lookup_congr (db db2 : Keyspace) (t : Time) (key : String) (h : db key = db2 key) :
    db.lookup t key = db2.lookup t key := by
  simp [Keyspace.lookup, h]

theorem Manager_Get_congr (tm : TokenManager) (id : String) (w w2 : World)
    (hup : w.up = w2.up) (hrtt : w.rtt = w2.rtt) (hnow : w.now = w2.now)
    (hdb : w.db (tm.redisConn.prepareKey id) = w2.db (tm.redisConn.prepareKey id)) :
    (tm.Get id w).1 = (tm.Get id w2).1 := by
  cases h : w.up with
  | false =>
    rw [Manager_Get_down _ _ _ h, Manager_Get_down _ _ _ (hup ▸ h)]
  | true =>
    rw [Manager_Get_up _ _ _ h, Manager_Get_up _ _ _ (hup ▸ h)]
    simp only [getReply, ttlReply, ← hrtt, ← hnow, lookup_congr _ _ _ _ hdb]
    split_ifs
    · rfl
    · split <;> rfl

theorem Manager_Authenticate_congr (tm : TokenManager) (t : Token) (w w2 : World)
    (hup : w.up = w2.up) (hrtt : w.rtt = w2.rtt) (hnow : w.now = w2.now)
    (hdb : w.db (tm.redisConn.prepareKey t.Id) = w2.db (tm.redisConn.prepareKey t.Id)) :
    (tm.Authenticate t w).1 = (tm.Authenticate t w2).1 := by
  have hg := Manager_Get_congr tm t.Id w w2 hup hrtt hnow hdb
  simp only [TokenManager.Authenticate]
  split_ifs
  · rfl
  · rfl
  · rcases h1 : tm.Get t.Id w with ⟨r1, w1⟩
    rcases h2 : tm.Get t.Id w2 with ⟨r2, w3⟩
    simp only [h1, h2] at hg
    subst hg
    cases r1 with
    | error e => simp only; split_ifs <;> rfl
    | ok tok => simp only; split_ifs <;> rfl

theorem Manager_Create_up (tm : TokenManager) (id : String) (w : World) (u : UUID)
    (hid : id ≠ "") (hup : w.up = true) (hu : w.entropy w.draws = some u) :
    tm.Create id w =
      (.ok { Id := id, Value := u.val,
             ExpireAt := Time.Round (Time.Add w.now tm.ttl) Minute },
       { w with
         db := w.db.put (tm.redisConn.prepareKey id)
                 (recordAfterSet (w.now + w.rtt) u.val
                    (Time.Round (Time.Add w.now tm.ttl) Minute)),
         now := w.now + w.rtt,
         draws := w.draws + 1,
         sent := .EXEC :: .EXPIREAT (tm.redisConn.prepareKey id)
                    (Time.Unix (Time.Round (Time.Add w.now tm.ttl) Minute)) ::
                 .SET (tm.redisConn.prepareKey id) u.val :: .MULTI :: w.sent }) := by
  have hup1 : ({ w with draws := w.draws + 1 } : World).up = true := hup
  simp only [TokenManager.Create, hid, if_false, TokenManager.generateUUID, uuidNewV4, hu,
    Redis_Set_up _ _ _ _ _ hup1, NewToken]

theorem Manager_Get_frame (tm : TokenManager) (id : String) (w : World) :
    (tm.Get id w).2.up = w.up ∧ (tm.Get id w).2.rtt = w.rtt ∧ (tm.Get id w).2.db = w.db
      ∧ (tm.Get id w).2.entropy = w.entropy ∧ (tm.Get id w).2.draws = w.draws := by
  cases h : w.up with
  | false => simp [Manager_Get_down _ _ _ h, World.tick, h]
  | true =>
    rw [Manager_Get_up _ _ _ h]
    split_ifs
    · simp [World.tick, h]
    · split <;> simp [World.tick, h]

theorem Manager_Create_frame (tm : TokenManager) (id : String) (w : World) :
    (tm.Create id w).2.up = w.up ∧ (tm.Create id w).2.rtt = w.rtt ∧
      ∀ k, k ≠ tm.redisConn.prepareKey id → (tm.Create id w).2.db k = w.db k := by
  by_cases hid : id = ""
  · simp [TokenManager.Create, hid]
  · rcases hu : w.entropy w.draws with _ | u
    · simp [TokenManager.Create, hid, TokenManager.generateUUID, uuidNewV4, hu]
    · cases h : w.up with
      | true =>
        rw [Manager_Create_up tm id w u hid h hu]
        refine ⟨h.symm ▸ rfl, rfl, ?_⟩
        intro k hk
        exact put_other _ _ _ _ hk
      | false =>
        have hup1 : ({ w with draws := w.draws + 1 } : World).up = false := h
        simp only [TokenManager.Create, hid, if_false, TokenManager.generateUUID, uuidNewV4, hu,
          Redis_Set_down _ _ _ _ _ hup1]
        simp [h]

theorem Manager_Invalidate_frame (tm : TokenManager) (id : String) (w : World) :
    (tm.Invalidate id w).2.up = w.up ∧ (tm.Invalidate id w).2.rtt = w.rtt ∧
      ∀ k, k ≠ tm.redisConn.prepareKey id → (tm.Invalidate id w).2.db k = w.db k := by
  by_cases hid : id = ""
  · simp [TokenManager.Invalidate, hid]
  · cases h : w.up with
    | true =>
      rw [TokenManager.Invalidate, if_neg hid, Redis_Del_up _ _ _ h]
      refine ⟨h, rfl, ?_⟩
      intro k hk
      exact put_other _ _ _ _ hk
    | false =>
      simp [TokenManager.Invalidate, hid, Redis_Del_down _ _ _ h, World.tick, h]

theorem Manager_GetOrCreate_frame (tm : TokenManager) (id : String) (w : World) :
    (tm.GetOrCreate id w).2.up = w.up ∧ (tm.GetOrCreate id w).2.rtt = w.rtt ∧
      ∀ k, k ≠ tm.redisConn.prepareKey id → (tm.GetOrCreate id w).2.db k = w.db k := by
  by_cases hid : id = ""
  · simp [TokenManager.GetOrCreate, hid]
  · have hg := Manager_Get_frame tm id w
    simp only [TokenManager.GetOrCreate, hid, if_false]
    rcases hget : tm.Get id w with ⟨res, w1⟩
    rw [hget] at hg
    simp only at hg
    obtain ⟨h1, h2, h3, -, -⟩ := hg
    cases res with
    | ok tok => simp [h1, h2, h3]
    | error err =>
      simp only
      split_ifs
      · simp [h1, h2, h3]
      · have hc := Manager_Create_frame tm id w1
        rw [h1, h2, h3] at hc
        exact hc

theorem Manager_Get_of_record (tm : TokenManager) (id v : String) (E : Time) (w : World)
    (hup : w.up = true) (hv : v ≠ "")
    (hrec : w.db (tm.redisConn.prepareKey id) = some ⟨v, some (Time.Unix E)⟩)
    (hE : E % Minute = 0) (hlive : w.now + w.rtt + w.rtt < E)
    (hr : (E - (w.now + w.rtt + w.rtt)) / Second - 4 ≤ 9223372036) :
    tm.Get id w = (.ok ⟨id, v, E⟩,
      (w.tick (.GET (tm.redisConn.prepareKey id))).tick (.TTL (tm.redisConn.prepareKey id))) := by
  have hU := Unix_of_aligned E hE
  have hlive1 : w.now + w.rtt < E := by
    simp only [Time, Duration] at *
    omega
  have h0 : 0 ≤ (E - (w.now + w.rtt + w.rtt)) / Second := by
    simp only [Second, Time, Duration] at *
    omega
  rw [Manager_Get_up _ _ _ hup, getReply_of_record _ _ _ _ _ hrec,
    ttlReply_of_record _ _ _ _ _ hrec, hU, if_pos hlive1, if_pos hlive, if_neg hv,
    expireAtOfReply_in_range _ _ h0 hr]
  simp only [Round_after_correction E _ hE]

theorem Manager_Get_readable (tm : TokenManager) (id : String) (w : World) (e : Entry)
    (hup : w.up = true)
    (hl : w.db.lookup (w.now + w.rtt) (tm.redisConn.prepareKey id) = some e)
    (hv : e.value ≠ "")
    (hres : ttlReply w.db (w.now + w.rtt + w.rtt) (tm.redisConn.prepareKey id) = -1 ∨
      (0 ≤ ttlReply w.db (w.now + w.rtt + w.rtt) (tm.redisConn.prepareKey id) ∧
        ttlReply w.db (w.now + w.rtt + w.rtt) (tm.redisConn.prepareKey id) - 4
          ≤ 9223372036)) :
    ∃ x, tm.Get id w = (.ok ⟨id, e.value, x⟩,
      (w.tick (.GET (tm.redisConn.prepareKey id))).tick (.TTL (tm.redisConn.prepareKey id))) := by
  obtain ⟨y, hy⟩ := expireAtOfReply_readable (w.now + w.rtt + w.rtt) _ hres
  refine ⟨Time.Round y Minute, ?_⟩
  rw [Manager_Get_up _ _ _ hup]
  simp only [getReply, hl, hv, if_false, hy]

theorem Manager_Authenticate_of_Get (tm : TokenManager) (t tok : Token) (w w1 : World)
    (hId : t.Id ≠ "") (hVal : t.Value ≠ "") (hget : tm.Get t.Id w = (.ok tok, w1)) :
    tm.Authenticate t w =
      (if tok.Value ≠ t.Value then some token.ErrInvalidToken else none, w1) := by
  simp only [TokenManager.Authenticate, hId, hVal, if_false, hget]
  split_ifs <;> rfl

theorem uuid_ne_empty (u : UUID) : u.val ≠ "" := by
  intro h
  have hl := u.property
  rw [h] at hl
  simp at hl

theorem Manager_Create_record (tm : TokenManager) (id : String) (w : World) (u : UUID)
    (hid : id ≠ "") (hup : w.up = true) (hu : w.entropy w.draws = some u)
    (hlive : w.now + w.rtt < Time.Round (Time.Add w.now tm.ttl) Minute) :
    (tm.Create id w).2.db (tm.redisConn.prepareKey id)
      = some ⟨u.val, some (Time.Unix (Time.Round (Time.Add w.now tm.ttl) Minute))⟩ ∧
    (tm.Create id w).2.now = w.now + w.rtt ∧ (tm.Create id w).2.up = true ∧
    (tm.Create id w).2.rtt = w.rtt ∧ (tm.Create id w).2.draws = w.draws + 1 ∧
    (tm.Create id w).2.entropy = w.entropy := by
  have hU := Unix_of_aligned _ (Round_Minute_aligned (Time.Add w.now tm.ttl))
  have hnot : ¬ Time.Unix (Time.Round (Time.Add w.now tm.ttl) Minute) * Second
      ≤ w.now + w.rtt := by
    rw [hU]
    simp only [Time, Duration] at *
    omega
  rw [Manager_Create_up tm id w u hid hup hu]
  simp [Keyspace.put, recordAfterSet, hnot, hup]

theorem Manager_Create_log_irrelevant (tm : TokenManager) (id : String) (w w2 : World)
    (hup : w2.up = w.up) (hdb : w2.db = w.db) (hnow : w2.now = w.now) (hrtt : w2.rtt = w.rtt)
    (hdraws : w2.draws = w.draws) (hent : w2.entropy = w.entropy) :
    (tm.Create id w2).1 = (tm.Create id w).1 ∧ (tm.Create id w2).2.db = (tm.Create id w).2.db := by
  obtain ⟨up, db, now, rtt, sent, draws, entropy⟩ := w
  obtain ⟨up2, db2, now2, rtt2, sent2, draws2, entropy2⟩ := w2
  simp only at hup hdb hnow hrtt hdraws hent
  subst hup hdb hnow hrtt hdraws hent
  by_cases hid : id = ""
  · simp [TokenManager.Create, hid]
  · rcases hu : entropy2 draws2 with _ | u
    · simp [TokenManager.Create, hid, TokenManager.generateUUID, uuidNewV4, hu]
    · cases up2 with
      | true =>
        rw [Manager_Create_up tm id _ u hid rfl hu, Manager_Create_up tm id _ u hid rfl hu]
        exact ⟨rfl, rfl⟩
      | false =>
        simp only [TokenManager.Create, hid, if_false, TokenManager.generateUUID, uuidNewV4, hu]
        rw [Redis_Set_down _ _ _ _ _ rfl, Redis_Set_down _ _ _ _ _ rfl]
        exact ⟨rfl, rfl⟩

theorem Manager_GetOrCreate_absent (tm : TokenManager) (id : String) (w : World)
    (hid : id ≠ "") (hup : w.up = true)
    (hl : w.db.lookup (w.now + w.rtt) (tm.redisConn.prepareKey id) = none) :
    tm.GetOrCreate id w = tm.Create id (w.tick (.GET (tm.redisConn.prepareKey id))) := by
  simp [TokenManager.GetOrCreate, hid, Manager_Get_up _ _ _ hup, getReply, hl]

theorem observations_of_same_record (tm : TokenManager) (b : String) (w w2 : World)
    (hup : w2.up = w.up) (hrtt : w2.rtt = w.rtt)
    (hdb : w2.db (tm.redisConn.prepareKey b) = w.db (tm.redisConn.prepareKey b)) (now : Time) :
    (tm.Get b (w2.atTime now)).1 = (tm.Get b (w.atTime now)).1 ∧
    ∀ t : Token, t.Id = b →
      (tm.Authenticate t (w2.atTime now)).1 = (tm.Authenticate t (w.atTime now)).1 := by
  refine ⟨Manager_Get_congr tm b _ _ hup hrtt rfl hdb, ?_⟩
  intro t ht
  subst ht
  exact Manager_Authenticate_congr tm t _ _ hup hrtt rfl hdb

/-! ## The claims -/

/-- C3: `Create("")`, `GetOrCreate("")` and `Invalidate("")` fail with
`ErrIdNotSet` and leave the world untouched (no command is written, the store
is unchanged).  `Get("")` has no such guard: in every world it writes
`GET <prefix>:` to the connection and its result is never `ErrIdNotSet`. -/
theorem C3_empty_id_guard_missing_in_Get (tm : TokenManager) (w : World) :
    tm.Create "" w = (.error token.ErrIdNotSet, w) ∧
    tm.GetOrCreate "" w = (.error token.ErrIdNotSet, w) ∧
    tm.Invalidate "" w = (some token.ErrIdNotSet, w) ∧
    (tm.Get "" w).1 ≠ .error token.ErrIdNotSet ∧
    (∃ rest, (tm.Get "" w).2.sent = rest ++ .GET (tm.redisConn.pfx ++ ":") :: w.sent) ∧
    (tm.Get "" (emptyWorld 0 0)).1 = .error token.ErrNotFound := by
  refine ⟨by simp [TokenManager.Create], by simp [TokenManager.GetOrCreate],
    by simp [TokenManager.Invalidate], ?_, ?_, ?_⟩
  · cases h : w.up with
    | false => simp [Manager_Get_down _ _ _ h]
    | true =>
      rw [Manager_Get_up _ _ _ h]
      split_ifs
      · simp
      · simp only [expireAtOfReply]
        split_ifs
        · simp
        · simp
        · cases ParseDurationSeconds _ <;> simp
  · cases h : w.up with
    | false => exact ⟨[], by simp [Manager_Get_down _ _ _ h, World.tick, Redis.prepareKey]⟩
    | true =>
      rw [Manager_Get_up _ _ _ h]
      split_ifs
      · exact ⟨[], by simp [World.tick, Redis.prepareKey]⟩
      · split <;> exact ⟨[.TTL (tm.redisConn.prepareKey "")], by simp [World.tick, Redis.prepareKey]⟩
  · rw [Manager_Get_up _ _ _ rfl]
    simp [getReply, Keyspace.lookup, emptyWorld]

/-- C7: for a non-empty id and a reachable store, `Invalidate(id)` returns no
error whether or not a record exists; afterwards the store holds no record for
the id at any instant, `Get(id)` fails with `ErrNotFound` and the adapter's
`Get` returns the empty string. -/
theorem C7_invalidate_removes_record (tm : TokenManager) (id : String) (w : World)
    (hid : id ≠ "") (hup : w.up = true) :
    (tm.Invalidate id w).1 = none ∧
    (∀ t, (tm.Invalidate id w).2.db.lookup t (tm.redisConn.prepareKey id) = none) ∧
    (∀ t, (tm.Get id ((tm.Invalidate id w).2.atTime t)).1 = .error token.ErrNotFound) ∧
    (∀ t, (tm.redisConn.Get id ((tm.Invalidate id w).2.atTime t)).1 = .ok "") := by
  rw [TokenManager.Invalidate, if_neg hid, Redis_Del_up _ _ _ hup]
  refine ⟨rfl, ?_, ?_, ?_⟩
  · intro t
    simp [lookup_put_same]
  · intro t
    rw [Manager_Get_up _ _ _ (by simpa [World.atTime] using hup)]
    simp [getReply, World.atTime, lookup_put_same]
  · intro t
    rw [Redis_Get_up _ _ _ (by simpa [World.atTime] using hup)]
    simp [getReply, World.atTime, lookup_put_same]

/-- Witness for C7: the record of the invalidation test, id 6 with value 1467. -/
theorem C7_invalidate_removes_record_witness :
    ("6" : String) ≠ "" ∧
    (testManager.Get "6" (singleWorld 0 0 "generator-testing:6" ⟨"1467", some 60⟩)).1
      = .ok ⟨"6", "1467", 60 * Second⟩ ∧
    (testManager.Invalidate "6"
      (singleWorld 0 0 "generator-testing:6" ⟨"1467", some 60⟩)).1 = none ∧
    (testManager.Get "6" (((testManager.Invalidate "6"
      (singleWorld 0 0 "generator-testing:6" ⟨"1467", some 60⟩)).2).atTime 0)).1
      = .error token.ErrNotFound :=
  have h := C7_invalidate_removes_record testManager "6"
    (singleWorld 0 0 "generator-testing:6" ⟨"1467", some 60⟩) (by decide) rfl
  ⟨by decide, by decide, h.1, h.2.2.1 0⟩

/-- C10: for one adapter the key of an id is prefix, colon, id (the prefix
being `go-token` when `NewRedis` is given the empty prefix) and this mapping is
injective.  Hence for ids a and b that differ, after `Create(a)`,
`GetOrCreate(a)` or `Invalidate(a)` the record of b is the one from before, and
`Get(b)` and `Authenticate` of a token with id b, evaluated at any clock
reading, give the results they give without the operation on a. -/
theorem C10_distinct_ids_do_not_interfere (tm : TokenManager) (a b : String) (hab : a ≠ b)
    (w : World) :
    (∀ id, tm.redisConn.prepareKey id = tm.redisConn.pfx ++ ":" ++ id) ∧
    (∀ x y, tm.redisConn.prepareKey x = tm.redisConn.prepareKey y → x = y) ∧
    (∀ conf w0 r w1, NewRedis conf "" w0 = (.ok r, w1) → r.pfx = "go-token") ∧
    (∀ w2 ∈ [(tm.Create a w).2, (tm.GetOrCreate a w).2, (tm.Invalidate a w).2],
      w2.db (tm.redisConn.prepareKey b) = w.db (tm.redisConn.prepareKey b) ∧
      ∀ now : Time,
        (tm.Get b (w2.atTime now)).1 = (tm.Get b (w.atTime now)).1 ∧
        ∀ t : Token, t.Id = b →
          (tm.Authenticate t (w2.atTime now)).1 = (tm.Authenticate t (w.atTime now)).1) := by
  have hkey : tm.redisConn.prepareKey b ≠ tm.redisConn.prepareKey a :=
    fun h => hab (prepareKey_injective _ _ _ h).symm
  refine ⟨fun _ => rfl, prepareKey_injective _, ?_, ?_⟩
  · intro conf w0 r w1 h
    unfold NewRedis World.Dial at h
    by_cases hup : w0.up = true
    · by_cases hdb : conf.DB = 0
      · simp [hup, hdb, Prefix] at h
        rw [← h.1]
      · simp [hup, hdb, Prefix, World.Do] at h
        rw [← h.1]
    · simp [hup] at h
  · intro w2 hw2
    simp only [List.mem_cons, List.mem_singleton, List.not_mem_nil, or_false] at hw2
    rcases hw2 with rfl | rfl | rfl
    · obtain ⟨h1, h2, h3⟩ := Manager_Create_frame tm a w
      exact ⟨h3 _ hkey, observations_of_same_record tm b w _ h1 h2 (h3 _ hkey)⟩
    · obtain ⟨h1, h2, h3⟩ := Manager_GetOrCreate_frame tm a w
      exact ⟨h3 _ hkey, observations_of_same_record tm b w _ h1 h2 (h3 _ hkey)⟩
    · obtain ⟨h1, h2, h3⟩ := Manager_Invalidate_frame tm a w
      exact ⟨h3 _ hkey, observations_of_same_record tm b w _ h1 h2 (h3 _ hkey)⟩

/-- Witness for C10: ids 7 and 8 of the tests; creating a token for 8 leaves
the record of 7 and what `Get("7")` returns as they were. -/
theorem C10_distinct_ids_do_not_interfere_witness :
    ("8" : String) ≠ "7" ∧
    (testManager.Get "7" (singleWorld 0 0 "generator-testing:7" ⟨"1467", some 60⟩)).1
      = .ok ⟨"7", "1467", 60 * Second⟩ ∧
    (testManager.Get "7" ((testManager.Create "8"
        (singleWorld 0 0 "generator-testing:7" ⟨"1467", some 60⟩)).2.atTime 0)).1
      = (testManager.Get "7"
          ((singleWorld 0 0 "generator-testing:7" ⟨"1467", some 60⟩).atTime 0)).1 :=
  ⟨by decide, by decide,
    ((C10_distinct_ids_do_not_interfere testManager "8" "7" (by decide)
      (singleWorld 0 0 "generator-testing:7" ⟨"1467", some 60⟩)).2.2.2
        _ (List.mem_cons_self _ _)).2 0 |>.1⟩

/-- C8: for every integer reply `res` of the store to `TTL`, `GetExpireAt`
fails with the adapter's `ErrNotFound` when `res = -2`, returns the zero
timestamp when `res = -1`, and when `res >= 0` and `res - 4` seconds fit a
duration returns the clock reading plus `res - 4` seconds.  Consequently, for a
key written by `Set` with expiry `E`, every timestamp `GetExpireAt` returns
later is strictly before `E`, and one is returned whenever the read reaches
the server before the stored expiry and the remaining seconds fit a
duration. -/
theorem C8_GetExpireAt_corrects_reply_by_four (r : Redis) (id : String) :
    (∀ (w : World) (res : Int), (w.Do (.TTL (r.prepareKey id))).1 = .ok (.int res) →
      (res = -2 → (r.GetExpireAt id w).1 = .error redis.ErrNotFound) ∧
      (res = -1 → (r.GetExpireAt id w).1 = .ok zeroTime) ∧
      (0 ≤ res → -(2 : Int) ^ 63 ≤ (res - 4) * Second → (res - 4) * Second < (2 : Int) ^ 63 →
        (r.GetExpireAt id w).1 =
          .ok (Time.Add (r.GetExpireAt id w).2.now ((res - 4) * Second)))) ∧
    (∀ (w0 : World) (v : String) (E : Time) (d : Nat) (ts : Time), w0.up = true →
      (r.GetExpireAt id ((r.Set id v E w0).2.atTime ((r.Set id v E w0).2.now + d))).1 = .ok ts →
      ts < E) ∧
    (∀ (w0 : World) (v : String) (E : Time) (d : Nat), w0.up = true →
      w0.now + w0.rtt + d + w0.rtt < Time.Unix E * Second →
      (Time.Unix E * Second - (w0.now + w0.rtt + d + w0.rtt)) / Second - 4 ≤ 9223372036 →
      ∃ ts, (r.GetExpireAt id
              ((r.Set id v E w0).2.atTime ((r.Set id v E w0).2.now + d))).1 = .ok ts
            ∧ ts < E) := by
  refine ⟨?_, ?_, ?_⟩
  · intro w res hrep
    have hup : w.up = true := by
      cases h : w.up with
      | true => rfl
      | false => simp [World.Do, h] at hrep
    have hres : ttlReply w.db (w.now + w.rtt) (r.prepareKey id) = res := by
      simpa [World.Do, hup, serve_TTL] using hrep
    rw [Redis_GetExpireAt_up _ _ _ hup, hres]
    refine ⟨?_, ?_, ?_⟩
    · intro h
      simp [expireAtOfReply, h]
    · intro h
      simp [expireAtOfReply, h]
    · intro h0 hlo hhi
      have hr : res - 4 ≤ 9223372036 := by
        unfold Second at hhi
        omega
      simp [expireAtOfReply_in_range _ _ h0 hr, World.tick, Time.Add]
  · intro w0 v E d ts hup hts
    rw [Redis_Set_up _ _ _ _ _ hup] at hts
    rw [Redis_GetExpireAt_up _ _ _ (by simpa [World.atTime] using hup)] at hts
    simp only [World.atTime] at hts
    have hE : Time.Unix E * Second ≤ E := by
      unfold Time.Unix Second
      omega
    by_cases hset : Time.Unix E * Second ≤ w0.now + w0.rtt
    · simp [recordAfterSet, hset, ttlReply, lookup_put_same, expireAtOfReply] at hts
    · have hrec : (w0.db.put (r.prepareKey id) (recordAfterSet (w0.now + w0.rtt) v E))
          (r.prepareKey id) = some ⟨v, some (Time.Unix E)⟩ := by
        simp [recordAfterSet, hset, Keyspace.put]
      rw [ttlReply_of_record _ _ _ _ _ hrec] at hts
      split_ifs at hts with hlive
      · by_cases hr : (Time.Unix E * Second - (w0.now + w0.rtt + d + w0.rtt)) / Second - 4
            ≤ 9223372036
        · rw [expireAtOfReply_in_range _ _ (by simp only [Second, Time, Duration] at *; omega) hr] at hts
          simp only [Except.ok.injEq] at hts
          simp only [Second, Time, Duration] at *
          omega
        · rw [expireAtOfReply_out_of_range _ _ (by omega)] at hts
          cases hts
      · simp [expireAtOfReply] at hts
  · intro w0 v E d hup hlive hr
    have hE : Time.Unix E * Second ≤ E := by
      unfold Time.Unix Second
      omega
    have hset : ¬ Time.Unix E * Second ≤ w0.now + w0.rtt := by
      simp only [Second, Time, Duration] at *
      omega
    have hrec : (w0.db.put (r.prepareKey id) (recordAfterSet (w0.now + w0.rtt) v E))
        (r.prepareKey id) = some ⟨v, some (Time.Unix E)⟩ := by
      simp [recordAfterSet, hset, Keyspace.put]
    rw [Redis_Set_up _ _ _ _ _ hup]
    rw [Redis_GetExpireAt_up _ _ _ (by simpa [World.atTime] using hup)]
    simp only [World.atTime]
    rw [ttlReply_of_record _ _ _ _ _ hrec, if_pos hlive,
      expireAtOfReply_in_range _ _ (by simp only [Second, Time, Duration] at *; omega) hr]
    refine ⟨_, rfl, ?_⟩
    simp only [Second, Time, Duration] at *
    omega

/-- Witness for C8: the adapter test, a key set to expire four minutes and a
half second ahead and read at once: the reply is 240 and the result is second
236. -/
theorem C8_GetExpireAt_corrects_reply_by_four_witness :
    (emptyWorld 0 0).up = true ∧
    (∃ ts, (adapterTestRedis.GetExpireAt "15"
        ((adapterTestRedis.Set "15" "123123" (240 * Second + 500000000) (emptyWorld 0 0)).2.atTime
          ((adapterTestRedis.Set "15" "123123" (240 * Second + 500000000)
            (emptyWorld 0 0)).2.now + (0 : Nat)))).1 = .ok ts
      ∧ ts < 240 * Second + 500000000) ∧
    (adapterTestRedis.GetExpireAt "15"
        (adapterTestRedis.Set "15" "123123" (240 * Second + 500000000) (emptyWorld 0 0)).2).1
      = .ok (236 * Second) :=
  ⟨rfl,
   (C8_GetExpireAt_corrects_reply_by_four adapterTestRedis "15").2.2 (emptyWorld 0 0) "123123"
      (240 * Second + 500000000) 0 rfl (by decide) (by decide),
   by decide⟩

/-- C9: the record expires between the two reads of `Get`: the value read sees
3578, the TTL read is answered -2.  `Get` returns the adapter's `ErrNotFound`,
which is not the `ErrNotFound` of the token package; `Authenticate` returns
that adapter error instead of `ErrInvalidToken`, and `GetOrCreate` returns it
without writing a new token (only GET and TTL were sent).  Key absence on the
value read is normalized: on an empty keyspace `Get` fails with the token
package's `ErrNotFound`. -/
theorem C9_ttl_absence_is_not_normalized :
    (testManager.redisConn.Get "9" raceWorld).1 = .ok "3578" ∧
    redisInt ((testManager.redisConn.Get "9" raceWorld).2.Do (.TTL "generator-testing:9")).1
      = .ok (-2) ∧
    (testManager.Get "9" raceWorld).1 = .error redis.ErrNotFound ∧
    redis.ErrNotFound ≠ token.ErrNotFound ∧
    (testManager.Authenticate ⟨"9", "3578", zeroTime⟩ raceWorld).1 = some redis.ErrNotFound ∧
    (testManager.GetOrCreate "9" raceWorld).1 = .error redis.ErrNotFound ∧
    (testManager.GetOrCreate "9" raceWorld).2.sent
      = [.TTL "generator-testing:9", .GET "generator-testing:9"] ∧
    (testManager.Get "9" (emptyWorld 0 0)).1 = .error token.ErrNotFound := by
  decide

/-- C2, refuted as stated: `Authenticate` succeeds on a record without expiry,
whose TTL reply is -1, and on a record in its last second, whose TTL reply is
0; neither reply is positive. -/
theorem C2_counterexample_success_without_positive_ttl :
    ((testManager.Authenticate ⟨"9", "3578", zeroTime⟩ noExpiryWorld).1 = none ∧
      redisInt ((testManager.redisConn.Get "9" noExpiryWorld).2.Do
        (.TTL "generator-testing:9")).1 = .ok (-1)) ∧
    ((testManager.Authenticate ⟨"9", "3578", zeroTime⟩ lastSecondWorld).1 = none ∧
      redisInt ((testManager.redisConn.Get "9" lastSecondWorld).2.Do
        (.TTL "generator-testing:9")).1 = .ok 0) := by
  decide

/-- C2, amended: when `Authenticate` succeeds the store is reachable, the
token has an id and a value, the store holds a record for the id whose value
equals the token's, and the reply to the TTL read is not the key-absent reply
-2: it is -1 (no expiry) or non-negative, possibly 0. -/
theorem C2_success_means_matching_record (tm : TokenManager) (t : Token) (w : World)
    (h : (tm.Authenticate t w).1 = none) :
    w.up = true ∧ t.Id ≠ "" ∧ t.Value ≠ "" ∧
    (∃ e, w.db.lookup (w.now + w.rtt) (tm.redisConn.prepareKey t.Id) = some e ∧
      e.value = t.Value) ∧
    (∃ res, redisInt ((tm.redisConn.Get t.Id w).2.Do
        (.TTL (tm.redisConn.prepareKey t.Id))).1 = .ok res ∧ (res = -1 ∨ 0 ≤ res)) := by
  by_cases hId : t.Id = ""
  · simp [TokenManager.Authenticate, hId] at h
  by_cases hVal : t.Value = ""
  · simp [TokenManager.Authenticate, hId, hVal] at h
  cases hup : w.up with
  | false =>
    simp [TokenManager.Authenticate, hId, hVal, Manager_Get_down _ _ _ hup] at h
  | true =>
    simp only [TokenManager.Authenticate, hId, hVal, if_false, Manager_Get_up _ _ _ hup] at h
    split_ifs at h with hempty
    · simp at h
    · rcases hexp : expireAtOfReply (w.now + w.rtt + w.rtt)
          (ttlReply w.db (w.now + w.rtt + w.rtt) (tm.redisConn.prepareKey t.Id)) with err | e
      · simp only [hexp] at h
        split_ifs at h
      · simp only [hexp] at h
        split_ifs at h with hne
        refine ⟨rfl, hId, hVal, ?_, ?_⟩
        · simp only [ne_eq, not_not] at hne
          unfold getReply at hne hempty
          rcases hl : w.db.lookup (w.now + w.rtt) (tm.redisConn.prepareKey t.Id) with _ | e2
          · simp [hl] at hempty
          · exact ⟨e2, rfl, by simpa [hl] using hne⟩
        · refine ⟨_, Do_TTL_after_Get _ _ _ hup, ?_⟩
          have h1 := expireAtOfReply_ok_ne _ _ _ hexp
          have h2 := ttlReply_ge w.db (w.now + w.rtt + w.rtt) (tm.redisConn.prepareKey t.Id)
          omega

/-- Witness for C2: the authentication test, a record with value 3578 and a
matching token. -/
theorem C2_success_means_matching_record_witness :
    (testManager.Authenticate ⟨"9", "3578", zeroTime⟩ freshWorld).1 = none ∧
    (∃ e, freshWorld.db.lookup (freshWorld.now + freshWorld.rtt)
        (testManager.redisConn.prepareKey "9") = some e ∧ e.value = "3578") :=
  ⟨by decide,
   (C2_success_means_matching_record testManager ⟨"9", "3578", zeroTime⟩ freshWorld
      (by decide)).2.2.2.1⟩

/-- C1, refuted as stated: the store is reachable and holds a record for id 9
with value 3578, yet `Authenticate` of the matching token returns the adapter's
`ErrInvalidValue` instead of nil, and `Authenticate` of a token with another
value returns `ErrInvalidValue` instead of `ErrInvalidToken`: the record's
remaining seconds do not fit a duration. -/
theorem C1_counterexample_expiry_out_of_range :
    farFutureWorld.up = true ∧
    farFutureWorld.db.lookup (farFutureWorld.now + farFutureWorld.rtt)
      (testManager.redisConn.prepareKey "9") = some ⟨"3578", some 10000000000⟩ ∧
    AuthenticateSpec testManager ⟨"9", "3578", zeroTime⟩ farFutureWorld = none ∧
    (testManager.Authenticate ⟨"9", "3578", zeroTime⟩ farFutureWorld).1
      = some redis.ErrInvalidValue ∧
    AuthenticateSpec testManager ⟨"9", "3579", zeroTime⟩ farFutureWorld
      = some token.ErrInvalidToken ∧
    (testManager.Authenticate ⟨"9", "3579", zeroTime⟩ farFutureWorld).1
      = some redis.ErrInvalidValue := by
  decide

/-- C1, amended: on a reachable store where a record with a non-empty value
seen by the value read is answered, at the TTL read, by -1 or by a
non-negative reply `res` with `res - 4` seconds fitting a duration,
`Authenticate(t)` returns `ErrIdNotSet` if `t.Id` is empty; otherwise
`ErrValueNotSet` if `t.Value` is empty; otherwise `ErrInvalidToken` if the
store holds no record for `t.Id`; otherwise `ErrInvalidToken` if the stored
value differs from `t.Value`; otherwise nil. -/
theorem C1_authenticate_cases (tm : TokenManager) (t : Token) (w : World)
    (hup : w.up = true)
    (hread : ∀ e res, w.db.lookup (w.now + w.rtt) (tm.redisConn.prepareKey t.Id) = some e →
      e.value ≠ "" →
      redisInt ((tm.redisConn.Get t.Id w).2.Do (.TTL (tm.redisConn.prepareKey t.Id))).1
        = .ok res →
      res = -1 ∨ (0 ≤ res ∧ (res - 4) * Second < 2 ^ 63)) :
    (tm.Authenticate t w).1 = AuthenticateSpec tm t w := by
  by_cases hId : t.Id = ""
  · simp [TokenManager.Authenticate, AuthenticateSpec, hId]
  by_cases hVal : t.Value = ""
  · simp [TokenManager.Authenticate, AuthenticateSpec, hId, hVal]
  simp only [TokenManager.Authenticate, AuthenticateSpec, hId, hVal, if_false,
    Manager_Get_up _ _ _ hup, getReply]
  rcases hl : w.db.lookup (w.now + w.rtt) (tm.redisConn.prepareKey t.Id) with _ | e
  · simp
  · by_cases hev : e.value = ""
    · have hne : ¬ "" = t.Value := fun h => hVal h.symm
      simp [hev, hne]
    · obtain ⟨x, hx⟩ := expireAtOfReply_readable (w.now + w.rtt + w.rtt) _
        (fits_duration _ (hread e _ hl hev (Do_TTL_after_Get _ _ _ hup)))
      simp only [hev, if_false, hx]
      by_cases hne : e.value = t.Value <;> simp [hne]

/-- Witness for C1: the authentication test, a record with value 3578 read one
minute before it expires, and the matching token. -/
theorem C1_authenticate_cases_witness :
    freshWorld.up = true ∧
    (testManager.Authenticate ⟨"9", "3578", zeroTime⟩ freshWorld).1 = none ∧
    (testManager.Authenticate ⟨"9", "3578", zeroTime⟩ freshWorld).1
      = AuthenticateSpec testManager ⟨"9", "3578", zeroTime⟩ freshWorld :=
  ⟨rfl, by decide,
   C1_authenticate_cases testManager ⟨"9", "3578", zeroTime⟩ freshWorld rfl
     (by
       intro e res _ _ hres
       have h60 : res = 60 := by
         have hd : redisInt ((testManager.redisConn.Get "9" freshWorld).2.Do
             (.TTL (testManager.redisConn.prepareKey "9"))).1 = .ok 60 := by decide
         rw [hd] at hres
         exact (Except.ok.inj hres).symm
       subst h60
       exact Or.inr (by decide))⟩

/-- C4, refuted as stated: with a time-to-live of twenty seconds and the clock
five seconds past a minute, `Create` succeeds with an expiry rounded down to
the minute that has already begun; the record is gone at once and the `Get`
that follows fails with `ErrNotFound`. -/
theorem C4_counterexample_short_ttl :
    ("5" : String) ≠ "" ∧ (emptyWorld (5 * Second) 0).up = true ∧
    (shortManager.Create "5" (emptyWorld (5 * Second) 0)).1
      = .ok ⟨"5", "6ba7b810-9dad-41d1-80b4-00c04fd430c8", 0⟩ ∧
    (shortManager.Get "5" (shortManager.Create "5" (emptyWorld (5 * Second) 0)).2).1
      = .error token.ErrNotFound := by
  decide

/-- C4, amended: for a non-empty id and a reachable store whose TTL reply is
the whole seconds remaining, when the time-to-live is at least thirty seconds
plus the travel time of the three commands and at most 9223372010 seconds,
`Create(id)` followed by `Get(id)` succeeds and returns the id, the value
`Create` returned and the expiry `Create` returned, which lies within one
minute of creation time plus time-to-live.  Likewise a record written by the
adapter's `Set` with a minute-rounded expiry still ahead is read back by `Get`
with that same expiry. -/
theorem C4_create_then_get (tm : TokenManager) (id : String) (w : World)
    (hid : id ≠ "") (hup : w.up = true) :
    (∀ u : UUID, w.entropy w.draws = some u →
      Minute / 2 + 3 * w.rtt ≤ tm.ttl → tm.ttl ≤ 9223372010 * Second →
      ∃ tok, (tm.Create id w).1 = .ok tok ∧ tok.Id = id ∧ tok.Value = u.val ∧
        (tm.Get id (tm.Create id w).2).1 = .ok ⟨id, tok.Value, tok.ExpireAt⟩ ∧
        w.now + tm.ttl - Minute < tok.ExpireAt ∧ tok.ExpireAt < w.now + tm.ttl + Minute) ∧
    (∀ (v : String) (E : Time), v ≠ "" → E % Minute = 0 → w.now + 3 * w.rtt < E →
      (E - (w.now + 3 * w.rtt)) / Second - 4 ≤ 9223372036 →
      (tm.Get id (tm.redisConn.Set id v E w).2).1 = .ok ⟨id, v, E⟩) := by
  constructor
  · intro u hu hlo hhi
    have hnear := Round_Minute_near (Time.Add w.now tm.ttl)
    have hal := Round_Minute_aligned (Time.Add w.now tm.ttl)
    have hlive : w.now + w.rtt < Time.Round (Time.Add w.now tm.ttl) Minute := by
      simp only [Time.Add, Minute, Second, Time, Duration] at *
      omega
    obtain ⟨hrec, hnow, hup1, hrtt, -, -⟩ := Manager_Create_record tm id w u hid hup hu hlive
    refine ⟨⟨id, u.val, Time.Round (Time.Add w.now tm.ttl) Minute⟩, ?_, rfl, rfl, ?_, ?_, ?_⟩
    · rw [Manager_Create_up tm id w u hid hup hu]
    · rw [Manager_Get_of_record tm id u.val _ _ hup1 (uuid_ne_empty u) hrec hal]
      · rw [hnow, hrtt]
        simp only [Time.Add, Minute, Second, Time, Duration] at *
        omega
      · rw [hnow, hrtt]
        simp only [Time.Add, Minute, Second, Time, Duration] at *
        omega
    · simp only [Time.Add, Minute, Second, Time, Duration] at *
      omega
    · simp only [Time.Add, Minute, Second, Time, Duration] at *
      omega
  · intro v E hv hE hlive hr
    have hU := Unix_of_aligned E hE
    have hnot : ¬ Time.Unix E * Second ≤ w.now + w.rtt := by
      rw [hU]
      simp only [Time, Duration] at *
      omega
    rw [Redis_Set_up _ _ _ _ _ hup]
    dsimp only
    have he : w.now + (w.rtt : Int) + w.rtt + w.rtt = w.now + 3 * w.rtt := by ring
    refine congrArg Prod.fst (Manager_Get_of_record tm id v E _ (by exact hup) hv ?_ hE ?_ ?_)
    · simp [Keyspace.put, recordAfterSet, hnot]
    · simp only [he]
      exact hlive
    · simp only [he]
      exact hr

/-- Witness for C4: the manager of the tests (one minute) creating a token for
id 5 at instant 0 and reading it back; and the record of the retrieval test,
set to expire at the minute one minute ahead. -/
theorem C4_create_then_get_witness :
    ("5" : String) ≠ "" ∧ (emptyWorld 0 0).up = true ∧
    (∃ tok, (testManager.Create "5" (emptyWorld 0 0)).1 = .ok tok ∧ tok.Id = "5" ∧
        tok.Value = uuidA.val ∧
        (testManager.Get "5" (testManager.Create "5" (emptyWorld 0 0)).2).1
          = .ok ⟨"5", tok.Value, tok.ExpireAt⟩ ∧
        (emptyWorld 0 0).now + testManager.ttl - Minute < tok.ExpireAt ∧
        tok.ExpireAt < (emptyWorld 0 0).now + testManager.ttl + Minute) ∧
    (testManager.Get "5"
        (testManager.redisConn.Set "5" "1467" (1 * Minute) (emptyWorld 0 0)).2).1
      = .ok ⟨"5", "1467", 1 * Minute⟩ :=
  have h := C4_create_then_get testManager "5" (emptyWorld 0 0) (by decide) rfl
  ⟨by decide, rfl, h.1 uuidA rfl (by decide) (by decide),
   h.2 "1467" (1 * Minute) (by decide) (by decide) (by decide) (by decide)⟩

/-- C5, refuted as stated: with a time-to-live of twenty seconds and the clock
five seconds past a minute the two `Create` calls succeed with different
values, yet `Authenticate` with the second value fails with `ErrInvalidToken`:
the rounded expiry lies in the past and the record is gone. -/
theorem C5_counterexample_short_ttl :
    ("3" : String) ≠ "" ∧ (emptyWorld (5 * Second) 0).up = true ∧
    (shortManager.Create "3" (emptyWorld (5 * Second) 0)).1
      = .ok ⟨"3", uuidA.val, 0⟩ ∧
    (shortManager.Create "3" (shortManager.Create "3" (emptyWorld (5 * Second) 0)).2).1
      = .ok ⟨"3", uuidB.val, 0⟩ ∧
    uuidA.val ≠ uuidB.val ∧
    (shortManager.Authenticate ⟨"3", uuidB.val, 0⟩
      (shortManager.Create "3" (shortManager.Create "3" (emptyWorld (5 * Second) 0)).2).2).1
      = some token.ErrInvalidToken := by
  decide

/-- C5, amended: for a non-empty id, a reachable store, a generator whose
next two values differ, and a time-to-live of at least thirty seconds plus the
travel time of five commands and at most 9223372010 seconds: two successive
`Create(id)` calls return tokens with different values, the store record for
the id then holds the second value, `Authenticate` with the first value fails
with `ErrInvalidToken` and, after that, `Authenticate` with the second value
succeeds. -/
theorem C5_second_create_replaces_first (tm : TokenManager) (id : String) (w : World)
    (u1 u2 : UUID) (hid : id ≠ "") (hup : w.up = true)
    (h1 : w.entropy w.draws = some u1) (h2 : w.entropy (w.draws + 1) = some u2)
    (hdist : u1.val ≠ u2.val)
    (hlo : Minute / 2 + 5 * w.rtt ≤ tm.ttl) (hhi : tm.ttl ≤ 9223372010 * Second) :
    ∃ t1 t2 : Token,
      (tm.Create id w).1 = .ok t1 ∧
      (tm.Create id (tm.Create id w).2).1 = .ok t2 ∧
      t1.Value ≠ t2.Value ∧
      (tm.Create id (tm.Create id w).2).2.db (tm.redisConn.prepareKey id)
        = some ⟨t2.Value, some (Time.Unix t2.ExpireAt)⟩ ∧
      (tm.Authenticate ⟨id, t1.Value, t1.ExpireAt⟩ (tm.Create id (tm.Create id w).2).2).1
        = some token.ErrInvalidToken ∧
      (tm.Authenticate ⟨id, t2.Value, t2.ExpireAt⟩
        (tm.Authenticate ⟨id, t1.Value, t1.ExpireAt⟩
          (tm.Create id (tm.Create id w).2).2).2).1 = none := by
  have hnear1 := Round_Minute_near (Time.Add w.now tm.ttl)
  have hlive1 : w.now + w.rtt < Time.Round (Time.Add w.now tm.ttl) Minute := by
    simp only [Time.Add, Minute, Second, Time, Duration] at *
    omega
  obtain ⟨-, hnow1, hup1, hrtt1, hdraws1, hent1⟩ :=
    Manager_Create_record tm id w u1 hid hup h1 hlive1
  have hc1 := Manager_Create_up tm id w u1 hid hup h1
  generalize (tm.Create id w).2 = w1 at hnow1 hup1 hrtt1 hdraws1 hent1 ⊢
  have hu2 : w1.entropy w1.draws = some u2 := by rw [hent1, hdraws1]; exact h2
  have hnear2 := Round_Minute_near (Time.Add w1.now tm.ttl)
  have hal2 := Round_Minute_aligned (Time.Add w1.now tm.ttl)
  have hlive2 : w1.now + w1.rtt < Time.Round (Time.Add w1.now tm.ttl) Minute := by
    simp only [Time.Add, Minute, Second, Time, Duration] at *
    omega
  obtain ⟨hrec2, hnow2, hup2, hrtt2, -, -⟩ :=
    Manager_Create_record tm id w1 u2 hid hup1 hu2 hlive2
  have hc2 := Manager_Create_up tm id w1 u2 hid hup1 hu2
  generalize (tm.Create id w1).2 = w2 at hrec2 hnow2 hup2 hrtt2 ⊢
  have hget2 := Manager_Get_of_record tm id u2.val _ w2 hup2 (uuid_ne_empty u2) hrec2 hal2
    (by
      rw [hnow2, hrtt2]
      simp only [Time.Add, Minute, Second, Time, Duration] at *
      omega)
    (by
      rw [hnow2, hrtt2]
      simp only [Time.Add, Minute, Second, Time, Duration] at *
      omega)
  have hauth1 := Manager_Authenticate_of_Get tm
    ⟨id, u1.val, Time.Round (Time.Add w.now tm.ttl) Minute⟩ _ w2 _ hid (uuid_ne_empty u1) hget2
  have hget3 := Manager_Get_of_record tm id u2.val _
    ((w2.tick (.GET (tm.redisConn.prepareKey id))).tick (.TTL (tm.redisConn.prepareKey id)))
    hup2 (uuid_ne_empty u2) hrec2 hal2
    (by
      simp only [World.tick]
      rw [hnow2, hrtt2]
      simp only [Time.Add, Minute, Second, Time, Duration] at *
      omega)
    (by
      simp only [World.tick]
      rw [hnow2, hrtt2]
      simp only [Time.Add, Minute, Second, Time, Duration] at *
      omega)
  have hauth2 := Manager_Authenticate_of_Get tm
    ⟨id, u2.val, Time.Round (Time.Add w1.now tm.ttl) Minute⟩ _ _ _ hid (uuid_ne_empty u2) hget3
  refine ⟨⟨id, u1.val, Time.Round (Time.Add w.now tm.ttl) Minute⟩,
    ⟨id, u2.val, Time.Round (Time.Add w1.now tm.ttl) Minute⟩, ?_, ?_, hdist, hrec2, ?_, ?_⟩
  · rw [hc1]
  · rw [hc2]
  · rw [hauth1]
    simp [Ne.symm hdist]
  · rw [hauth1]
    simp only []
    rw [hauth2]
    simp

/-- Witness for C5: the manager of the tests (one minute), id 3, starting from
an empty store at instant 0 with a generator that alternates two uuids. -/
theorem C5_second_create_replaces_first_witness :
    ("3" : String) ≠ "" ∧ uuidA.val ≠ uuidB.val ∧
    ∃ t1 t2 : Token,
      (testManager.Create "3" (emptyWorld 0 0)).1 = .ok t1 ∧
      (testManager.Create "3" (testManager.Create "3" (emptyWorld 0 0)).2).1 = .ok t2 ∧
      t1.Value ≠ t2.Value ∧
      (testManager.Create "3" (testManager.Create "3" (emptyWorld 0 0)).2).2.db
        (testManager.redisConn.prepareKey "3")
        = some ⟨t2.Value, some (Time.Unix t2.ExpireAt)⟩ ∧
      (testManager.Authenticate ⟨"3", t1.Value, t1.ExpireAt⟩
        (testManager.Create "3" (testManager.Create "3" (emptyWorld 0 0)).2).2).1
        = some token.ErrInvalidToken ∧
      (testManager.Authenticate ⟨"3", t2.Value, t2.ExpireAt⟩
        (testManager.Authenticate ⟨"3", t1.Value, t1.ExpireAt⟩
          (testManager.Create "3" (testManager.Create "3" (emptyWorld 0 0)).2).2).2).1 = none :=
  ⟨by decide, by decide,
   C5_second_create_replaces_first testManager "3" (emptyWorld 0 0) uuidA uuidB (by decide) rfl
     rfl rfl (by decide) (by decide) (by decide)⟩

/-- C6, refuted as stated.  No record: with a time-to-live of twenty seconds
and the clock five seconds past a minute `GetOrCreate` creates a token, yet the
`Get` that follows fails with `ErrNotFound`.  Record present: when its expiry
is too far ahead `GetOrCreate` fails with `ErrInvalidValue` instead of
returning the stored value, and when its stored value is the empty string
`GetOrCreate` overwrites it with a new value. -/
theorem C6_counterexample_not_retrievable_or_overwritten :
    ((emptyWorld (5 * Second) 0).db.lookup (5 * Second) "generator-testing:8" = none ∧
      (shortManager.GetOrCreate "8" (emptyWorld (5 * Second) 0)).1
        = .ok ⟨"8", uuidA.val, 0⟩ ∧
      (shortManager.Get "8" (shortManager.GetOrCreate "8" (emptyWorld (5 * Second) 0)).2).1
        = .error token.ErrNotFound) ∧
    (farFutureWorld.db.lookup 0 "generator-testing:9" = some ⟨"3578", some 10000000000⟩ ∧
      (testManager.GetOrCreate "9" farFutureWorld).1 = .error redis.ErrInvalidValue) ∧
    (emptyValueWorld.db.lookup 0 "generator-testing:9" = some ⟨"", some 60⟩ ∧
      (testManager.GetOrCreate "9" emptyValueWorld).1 = .ok ⟨"9", uuidA.val, 1 * Minute⟩ ∧
      (testManager.GetOrCreate "9" emptyValueWorld).2.db "generator-testing:9"
        = some ⟨uuidA.val, some 60⟩) := by
  decide

/-- C6, amended: for a non-empty id and a reachable store.  If the value read
finds a record with a non-empty value and the TTL read is answered by -1 or by
a non-negative reply `res` with `res - 4` seconds fitting a duration,
`GetOrCreate(id)` returns a token with the id and the stored value, sends only
GET and TTL, and leaves the keyspace as it was.  If the value read finds no
record, `GetOrCreate(id)` is `Create(id)` run right after that read (with no
travel time: the result and the keyspace of `Create(id)` itself); and when the
time-to-live is at least thirty seconds plus the travel time of three commands
and at most 9223372010 seconds, a `Get(id)` that follows returns the created
value and expiry. -/
theorem C6_get_or_create (tm : TokenManager) (id : String) (w : World)
    (hid : id ≠ "") (hup : w.up = true) :
    (∀ e res, w.db.lookup (w.now + w.rtt) (tm.redisConn.prepareKey id) = some e →
      e.value ≠ "" →
      redisInt ((tm.redisConn.Get id w).2.Do (.TTL (tm.redisConn.prepareKey id))).1
        = .ok res →
      (res = -1 ∨ (0 ≤ res ∧ (res - 4) * Second < 2 ^ 63)) →
      ∃ tok, (tm.GetOrCreate id w).1 = .ok tok ∧ tok.Id = id ∧ tok.Value = e.value ∧
        (tm.GetOrCreate id w).2.db = w.db ∧
        (tm.GetOrCreate id w).2.sent
          = .TTL (tm.redisConn.prepareKey id) :: .GET (tm.redisConn.prepareKey id) :: w.sent) ∧
    (w.db.lookup (w.now + w.rtt) (tm.redisConn.prepareKey id) = none →
      tm.GetOrCreate id w = tm.Create id (w.tick (.GET (tm.redisConn.prepareKey id))) ∧
      (w.rtt = 0 → (tm.GetOrCreate id w).1 = (tm.Create id w).1 ∧
        (tm.GetOrCreate id w).2.db = (tm.Create id w).2.db) ∧
      (∀ u : UUID, w.entropy w.draws = some u →
        Minute / 2 + 3 * w.rtt ≤ tm.ttl → tm.ttl ≤ 9223372010 * Second →
        ∃ tok, (tm.GetOrCreate id w).1 = .ok tok ∧ tok.Value = u.val ∧
          (tm.Get id (tm.GetOrCreate id w).2).1 = .ok ⟨id, tok.Value, tok.ExpireAt⟩)) := by
  constructor
  · intro e res hl hv hrep hres
    have hrep2 := Do_TTL_after_Get tm.redisConn id w hup
    rw [hrep] at hrep2
    have hres2 := fits_duration _ hres
    rw [Except.ok.inj hrep2] at hres2
    obtain ⟨x, hx⟩ := Manager_Get_readable tm id w e hup hl hv hres2
    refine ⟨⟨id, e.value, x⟩, ?_, rfl, rfl, ?_, ?_⟩ <;>
      simp [TokenManager.GetOrCreate, hid, hx, World.tick]
  · intro hl
    have habs := Manager_GetOrCreate_absent tm id w hid hup hl
    refine ⟨habs, ?_, ?_⟩
    · intro hrtt
      rw [habs]
      exact Manager_Create_log_irrelevant tm id w _ rfl rfl (by simp [World.tick, hrtt]) rfl
        rfl rfl
    · intro u hu hlo hhi
      rw [habs]
      have hup1 : (w.tick (.GET (tm.redisConn.prepareKey id))).up = true := hup
      have hu1 : (w.tick (.GET (tm.redisConn.prepareKey id))).entropy
          (w.tick (.GET (tm.redisConn.prepareKey id))).draws = some u := hu
      have hnow0 : (w.tick (.GET (tm.redisConn.prepareKey id))).now = w.now + w.rtt := rfl
      have hrtt0 : (w.tick (.GET (tm.redisConn.prepareKey id))).rtt = w.rtt := rfl
      generalize w.tick (.GET (tm.redisConn.prepareKey id)) = w1 at hup1 hu1 hnow0 hrtt0 ⊢
      have hnear := Round_Minute_near (Time.Add w1.now tm.ttl)
      have hal := Round_Minute_aligned (Time.Add w1.now tm.ttl)
      have hlive : w1.now + w1.rtt < Time.Round (Time.Add w1.now tm.ttl) Minute := by
        simp only [Time.Add, Minute, Second, Time, Duration] at *
        omega
      obtain ⟨hrec, hnow, hup2, hrtt, -, -⟩ :=
        Manager_Create_record tm id w1 u hid hup1 hu1 hlive
      refine ⟨⟨id, u.val, Time.Round (Time.Add w1.now tm.ttl) Minute⟩, ?_, rfl, ?_⟩
      · rw [Manager_Create_up tm id w1 u hid hup1 hu1]
      · rw [Manager_Get_of_record tm id u.val _ _ hup2 (uuid_ne_empty u) hrec hal]
        · rw [hnow, hrtt]
          simp only [Time.Add, Minute, Second, Time, Duration] at *
          omega
        · rw [hnow, hrtt]
          simp only [Time.Add, Minute, Second, Time, Duration] at *
          omega

/-- Witness for C6: the test's record for id 7 with value 1467 is returned as
it is, and for id 8, which has no record, a token is created and read back. -/
theorem C6_get_or_create_witness :
    ("7" : String) ≠ "" ∧ ("8" : String) ≠ "" ∧
    (∃ tok, (testManager.GetOrCreate "7"
          (singleWorld 0 0 "generator-testing:7" ⟨"1467", some 60⟩)).1 = .ok tok ∧
        tok.Id = "7" ∧ tok.Value = "1467" ∧
        (testManager.GetOrCreate "7"
          (singleWorld 0 0 "generator-testing:7" ⟨"1467", some 60⟩)).2.db
          = (singleWorld 0 0 "generator-testing:7" ⟨"1467", some 60⟩).db ∧
        (testManager.GetOrCreate "7"
          (singleWorld 0 0 "generator-testing:7" ⟨"1467", some 60⟩)).2.sent
          = .TTL (testManager.redisConn.prepareKey "7") ::
              .GET (testManager.redisConn.prepareKey "7") ::
              (singleWorld 0 0 "generator-testing:7" ⟨"1467", some 60⟩).sent) ∧
    (∃ tok, (testManager.GetOrCreate "8" (emptyWorld 0 0)).1 = .ok tok ∧
        tok.Value = uuidA.val ∧
        (testManager.Get "8" (testManager.GetOrCreate "8" (emptyWorld 0 0)).2).1
          = .ok ⟨"8", tok.Value, tok.ExpireAt⟩) :=
  ⟨by decide, by decide,
   (C6_get_or_create testManager "7" (singleWorld 0 0 "generator-testing:7" ⟨"1467", some 60⟩)
      (by decide) rfl).1 ⟨"1467", some 60⟩ 60 (by decide) (by decide) (by decide)
      (Or.inr (by decide)),
   ((C6_get_or_create testManager "8" (emptyWorld 0 0) (by decide) rfl).2 (by decide)).2.2
      uuidA rfl (by decide) (by decide)⟩

end GoToken
